import Mathlib

/-!
Verification development for the worker-mailer SMTP client: a shallow
embedding of its quoted-printable body encoder, MIME message serializer
(header resolution, boundary generation, dot-stuffing), authentication
selection, DSN parameter construction, timeout wiring, and the session
close and processing loop, together with theorems about them.
-/

set_option maxRecDepth 10000

namespace WorkerMailer

/-- `str s` is the character list of a string literal, used to build wire text. -/
def str (s : String) : List Char := s.data

/-- Uppercase hexadecimal digit for `n < 16`, as produced by
`byte.toString(16).toUpperCase()`. -/
def hexDigitChar (n : Nat) : Char :=
  if n < 10 then Char.ofNat (48 + n) else Char.ofNat (55 + n)

/-- The three-character escape `=XX` (uppercase hex) for one byte. -/
def encByte (b : Nat) : List Char :=
  ['=', hexDigitChar (b / 16), hexDigitChar (b % 16)]

/-- Whether the byte at hand must be `=XX`-escaped, given the remaining bytes
(`utils.ts` `encodeQuotedPrintable`, the `needsEncoding` test): control
characters other than space/tab, bytes above 126, the equals sign, and a
space or tab standing immediately before a line break or the end of input. -/
def qpNeedsEncoding (b : Nat) (rest : List Nat) : Bool :=
  let isWhitespace := b == 32 || b == 9
  let nextIsLineBreak := rest.isEmpty || rest.head? == some 10 || rest.head? == some 13
  (decide (b < 32) && !isWhitespace) || decide (126 < b) || b == 61 ||
    (isWhitespace && nextIsLineBreak)

/-- The characters emitted for one byte in the general (non-line-break) arm of
`encodeQuotedPrintable`: a standalone CR becomes `=0D`, a byte that needs
encoding becomes `=XX`, anything else passes through literally. -/
def qpEncChar (b : Nat) (rest : List Nat) : List Char :=
  if b == 13 then ['=', '0', 'D']
  else if qpNeedsEncoding b rest then encByte b
  else [Char.ofNat b]

/-- The loop of `encodeQuotedPrintable` over the UTF-8 bytes: LF and CRLF
normalize to CRLF and reset the line length; otherwise the byte's encoding is
emitted, preceded by a soft break `=\r\n` when the line would grow past
`lineLength - 3`. -/
def qpAux (lineLength : Nat) : List Nat → Nat → List Char
  | [], _ => []
  | 10 :: rest, _ => '\r' :: '\n' :: qpAux lineLength rest 0
  | 13 :: 10 :: rest, _ => '\r' :: '\n' :: qpAux lineLength rest 0
  | b :: rest, len =>
    if lineLength - 3 < len + (qpEncChar b rest).length then
      '=' :: '\r' :: '\n' :: (qpEncChar b rest ++ qpAux lineLength rest (qpEncChar b rest).length)
    else
      qpEncChar b rest ++ qpAux lineLength rest (len + (qpEncChar b rest).length)

/-- `encodeQuotedPrintable` from `utils.ts`, over the UTF-8 bytes of the text. -/
def encodeQuotedPrintable (bytes : List Nat) (lineLength : Nat := 76) : List Char :=
  qpAux lineLength bytes 0

/-- Numeric value of one hexadecimal digit character. -/
def hexVal (c : Char) : Nat :=
  if c.toNat ≤ 57 then c.toNat - 48 else c.toNat - 55

/-- A standards-compliant quoted-printable decoder (RFC 2045 §6.7): drops soft
line breaks `=\r\n`, turns `=XX` escapes back into the byte, and passes every
other character through as its code point.  Modelled from the spec: the
decoder is the external counterpart of the repository's encoder. -/
def qpDecode : List Char → List Nat
  | [] => []
  | '=' :: '\r' :: '\n' :: rest => qpDecode rest
  | '=' :: h1 :: h2 :: rest => (hexVal h1 * 16 + hexVal h2) :: qpDecode rest
  | c :: rest => c.toNat :: qpDecode rest

/-- Line-break normalization: bare LF and CRLF both become CRLF; every other
byte (including a CR not followed by LF) is kept. -/
def normalizeNewlines : List Nat → List Nat
  | [] => []
  | 10 :: rest => 13 :: 10 :: normalizeNewlines rest
  | 13 :: 10 :: rest => 13 :: 10 :: normalizeNewlines rest
  | b :: rest => b :: normalizeNewlines rest

/-- UTF-8 encoding of one character, as `TextEncoder` produces it. -/
def utf8EncodeChar (c : Char) : List Nat :=
  let n := c.toNat
  if n < 128 then [n]
  else if n < 2048 then [192 + n / 64, 128 + n % 64]
  else if n < 65536 then [224 + n / 4096, 128 + (n / 64) % 64, 128 + n % 64]
  else [240 + n / 262144, 128 + (n / 4096) % 64, 128 + (n / 64) % 64, 128 + n % 64]

/-- UTF-8 byte sequence of a character list (`TextEncoder.encode`). -/
def utf8Encode : List Char → List Nat
  | [] => []
  | c :: rest => utf8EncodeChar c ++ utf8Encode rest

/-- UTF-8 bytes of a string literal. -/
def bytesOf (s : String) : List Nat := utf8Encode s.data

-- sanity checks against the repository's unit tests

/-- The global regex replacement of `applyDotStuffing`
(`data.replace(/\r\n\./g, '\r\n..')`): scanning left to right, every
occurrence of CRLF followed by a dot gets a second dot inserted, and
scanning resumes after the matched text. -/
def dotStuff : List Char → List Char
  | '\r' :: '\n' :: '.' :: rest => '\r' :: '\n' :: '.' :: '.' :: dotStuff rest
  | c :: rest => c :: dotStuff rest
  | [] => []

/-- `Email.applyDotStuffing`: the regex replacement, then a doubled leading
dot when the result starts with one. -/
def applyDotStuffing (data : List Char) : List Char :=
  let result := dotStuff data
  if result.head? == some '.' then '.' :: result else result

/-- Split a character list at every CRLF pair (the physical lines of the
rendered message). -/
def splitCRLF : List Char → List (List Char)
  | [] => [[]]
  | '\r' :: '\n' :: rest => [] :: splitCRLF rest
  | c :: rest =>
    match splitCRLF rest with
    | l :: ls => (c :: l) :: ls
    | [] => [[c]]

/-- Join lines back with CRLF separators. -/
def joinCRLF : List (List Char) → List Char
  | [] => []
  | [l] => l
  | l :: ls => l ++ '\r' :: '\n' :: joinCRLF ls

/-- SMTP transparency on one line: a line beginning with `.` gets a second
`.` prepended. -/
def stuffLine (l : List Char) : List Char :=
  if l.head? == some '.' then '.' :: l else l

/-- Stuff every line except the first. -/
def stuffTailLines : List (List Char) → List (List Char)
  | [] => []
  | l :: ls => l :: ls.map stuffLine

/-- `['.']` when the text starts with a dot, else `[]`. -/
def dotMark (s : List Char) : List Char :=
  if s.head? == some '.' then ['.'] else []

/-- Flatten a list of chunks produced per element. -/
def concatMap (f : α → List β) : List α → List β
  | [] => []
  | a :: rest => f a ++ concatMap f rest

/-- One byte of RFC 2047 Q-encoding (`encodeHeader` in `email.ts`): printable
ASCII other than `?`, `=`, `_` passes through, space becomes `_`, everything
else becomes `=XX`. -/
def encHdrByte (b : Nat) : List Char :=
  if 33 ≤ b && b ≤ 126 && b != 63 && b != 61 && b != 95 then [Char.ofNat b]
  else if b == 32 then ['_']
  else encByte b

/-- `encodeHeader` from `email.ts`: a string of pure ASCII passes through
unchanged; otherwise every UTF-8 byte is Q-encoded and the result is wrapped
as an RFC 2047 encoded word. -/
def encodeHeader (text : List Char) : List Char :=
  if text.all (fun c => c.toNat ≤ 127) then text
  else str "=?UTF-8?Q?" ++ concatMap encHdrByte (utf8Encode text) ++ str "?="

/-- JavaScript truthiness of an optional string: `undefined` and `''` are
falsy. -/
def jsTruthy : Option (List Char) → Bool
  | none => false
  | some s => !s.isEmpty

/-- A mail address with optional display name (`User` in `email.ts`). -/
structure EmailUser where
  name : Option (List Char)
  email : List Char
  deriving DecidableEq

/-- Header map of an `Email`: a JavaScript object, i.e. an insertion-ordered
association list with unique keys; assignment to an existing key keeps its
position. -/
abbrev HList := List (List Char × List Char)

/-- Lookup (`this.headers[k]`). -/
def hGet (h : HList) (k : List Char) : Option (List Char) :=
  (h.find? (fun p => p.1 == k)).map (·.2)

/-- Assignment (`this.headers[k] = v`): replace the value in place when the
key exists (a JavaScript object keeps the key's insertion position), append
the new entry otherwise. -/
def hSet : HList → List Char → List Char → HList
  | [], k, v => [(k, v)]
  | p :: rest, k, v => if p.1 == k then (k, v) :: rest else p :: hSet rest k v

/-- Truthiness of `this.headers[k]` (missing and empty are falsy). -/
def hTruthy (h : HList) (k : List Char) : Bool :=
  jsTruthy (hGet h k)

/-- DSN RET flags. -/
structure RetFlags where
  HEADERS : Bool
  FULL : Bool
  deriving DecidableEq

/-- DSN NOTIFY flags. -/
structure NotifyFlags where
  SUCCESS : Bool
  FAILURE : Bool
  DELAY : Bool
  deriving DecidableEq

/-- Per-message DSN override (`dsnOverride`); each sub-object is present or
absent. -/
structure DsnOverride where
  envelopeId : Option (List Char)
  RET : Option RetFlags
  NOTIFY : Option NotifyFlags
  deriving DecidableEq

/-- Session-level DSN defaults (`options.dsn`, normalized to `{}` by the
constructor). -/
structure SessionDsn where
  RET : Option RetFlags
  NOTIFY : Option NotifyFlags
  deriving DecidableEq

/-- One attachment entry. -/
structure Attachment where
  filename : List Char
  content : List Char
  mimeType : Option (List Char)
  deriving DecidableEq

/-- A field that accepts a bare address string or a structured user. -/
inductive UserInput where
  | strVal (s : List Char)
  | userVal (u : EmailUser)
  deriving DecidableEq

/-- A field that accepts one address or a list of either form. -/
inductive UsersInput where
  | one (u : UserInput)
  | many (l : List UserInput)
  deriving DecidableEq

/-- `EmailOptions` from `email.ts`. -/
structure EmailOptions where
  from_ : UserInput
  «to» : UsersInput
  reply : Option UserInput
  cc : Option UsersInput
  bcc : Option UsersInput
  subject : List Char
  text : Option (List Char)
  html : Option (List Char)
  headers : Option HList
  attachments : Option (List Attachment)
  dsnOverride : Option DsnOverride
  deriving DecidableEq

/-- Normalize one address input to a `User` record. -/
def toUser : UserInput → EmailUser
  | .strVal s => ⟨none, s⟩
  | .userVal u => u

/-- `Email.toUsers`: normalize the dynamic address union to a list. -/
def toUsers : Option UsersInput → Option (List EmailUser)
  | none => none
  | some (.one u) => some [toUser u]
  | some (.many l) => some (l.map toUser)

/-- The immutable state of a constructed `Email` (`email.ts`), together with
its mutable header object. -/
structure EmailRec where
  from_ : EmailUser
  «to» : List EmailUser
  reply : Option EmailUser
  cc : Option (List EmailUser)
  bcc : Option (List EmailUser)
  subject : List Char
  text : Option (List Char)
  html : Option (List Char)
  attachments : Option (List Attachment)
  dsnOverride : Option DsnOverride
  headers : HList
  deriving DecidableEq

/-- The `Email` constructor: throws when neither a (truthy) text body nor a
(truthy) HTML body is provided, otherwise normalizes the address fields. -/
def emailCtor (options : EmailOptions) : Except (List Char) EmailRec :=
  if !jsTruthy options.text && !jsTruthy options.html then
    .error (str "At least one of text or html must be provided")
  else
    .ok
      { from_ := toUser options.from_
        «to» := (toUsers (some options.to)).getD []
        reply := options.reply.map toUser
        cc := toUsers options.cc
        bcc := toUsers options.bcc
        subject := options.subject
        text := options.text
        html := options.html
        attachments := options.attachments
        dsnOverride := options.dsnOverride
        headers := options.headers.getD [] }

/-- Split a character list at every occurrence of one character. -/
def splitOnChar (c : Char) : List Char → List (List Char)
  | [] => [[]]
  | a :: rest =>
    if a = c then [] :: splitOnChar c rest
    else
      match splitOnChar c rest with
      | l :: ls => (a :: l) :: ls
      | [] => [[a]]

/-- Display form of an address used in headers: the RFC-2047-encoded display
name in quotes plus the angle-bracket address when a name is present, the
bare address otherwise. -/
def userDisplay (u : EmailUser) : List Char :=
  if jsTruthy u.name then
    '"' :: encodeHeader (u.name.getD []) ++ str "\" <" ++ u.email ++ ['>']
  else u.email

/-- `resolveFrom`'s header value. -/
def fromValue (e : EmailRec) : List Char := userDisplay e.from_

/-- A guarded resolver (`resolveFrom`/`resolveTo`/...): keep a truthy existing
header, otherwise set the value when one is applicable. -/
def resolveGuarded (h : HList) (k : List Char) (v : Option (List Char)) : HList :=
  if hTruthy h k then h
  else
    match v with
    | some v => hSet h k v
    | none => h

/-- A nullish-coalescing resolver (`Date`, `Message-ID`):
`headers[k] = headers[k] ?? v`. -/
def resolveNullish (h : HList) (k : List Char) (v : List Char) : HList :=
  hSet h k ((hGet h k).getD v)

/-- The generated `Message-ID` value: `<uuid@domain-of-sender>`. -/
def messageIdValue (e : EmailRec) (uuid : List Char) : List Char :=
  '<' :: uuid ++ '@' :: ((splitOnChar '@' e.from_.email).getLastD []) ++ ['>']

/-- The per-call nondeterministic inputs of `getEmailData`: the two random
boundary hex strings, the current time string and the random UUID. -/
structure Rand where
  mixedHex : List Char
  altHex : List Char
  now : List Char
  uuid : List Char
  deriving DecidableEq

/-- `Email.resolveHeader`: fill `From`, `To`, `Reply-To`, `CC`, `BCC`,
`Subject` unless already present (truthy), then `Date` and `Message-ID`
by nullish coalescing. -/
def resolveHeader (e : EmailRec) (h : HList) (r : Rand) : HList :=
  let h := resolveGuarded h (str "From") (some (fromValue e))
  let h := resolveGuarded h (str "To")
    (some (List.intercalate (str ", ") (e.to.map userDisplay)))
  let h := resolveGuarded h (str "Reply-To") (e.reply.map userDisplay)
  let h := resolveGuarded h (str "CC")
    (e.cc.map (fun l => List.intercalate (str ", ") (l.map userDisplay)))
  let h := resolveGuarded h (str "BCC")
    (e.bcc.map (fun l => List.intercalate (str ", ") (l.map userDisplay)))
  let h := resolveGuarded h (str "Subject")
    (if !e.subject.isEmpty then some (encodeHeader e.subject) else none)
  let h := resolveNullish h (str "Date") r.now
  resolveNullish h (str "Message-ID") (messageIdValue e r.uuid)

/-- Characters replaced by `_` in a generated MIME boundary. -/
def badBoundaryChar (c : Char) : Bool :=
  c == '<' || c == '>' || c == '@' || c == ',' || c == ';' || c == ':' ||
  c == '\\' || c == '/' || c == '[' || c == ']' || c == '?' || c == '=' ||
  c == '"' || c == ' '

/-- `generateSafeBoundary`, with the random hex string as explicit input. -/
def generateSafeBoundary (pre : List Char) (hex : List Char) : List Char :=
  (pre ++ hex).map (fun c => if badBoundaryChar c then '_' else c)

/-- The built-in extension table of `getMimeType`. -/
def getMimeType (filename : List Char) : List Char :=
  let extension := ((splitOnChar '.' filename).getLastD []).map Char.toLower
  let key := if extension.isEmpty then str "txt" else extension
  if key = str "txt" then str "text/plain"
  else if key = str "html" then str "text/html"
  else if key = str "csv" then str "text/csv"
  else if key = str "pdf" then str "application/pdf"
  else if key = str "png" then str "image/png"
  else if key = str "jpg" then str "image/jpeg"
  else if key = str "jpeg" then str "image/jpeg"
  else if key = str "gif" then str "image/gif"
  else if key = str "zip" then str "application/zip"
  else str "application/octet-stream"

/-- JavaScript `.` (without the `s` flag): any character except a line
terminator. -/
def dotMatch (c : Char) : Bool :=
  !(c == '\n' || c == '\r' || c.toNat == 8232 || c.toNat == 8233)

/-- Worker for `content.match(/.{1,72}/g)`: greedy runs of up to 72
dot-matchable characters, skipping line terminators. -/
def chunk72Aux : List Char → List Char → Nat → List (List Char)
  | [], acc, _ => if acc.isEmpty then [] else [acc.reverse]
  | c :: rest, acc, k =>
    if dotMatch c then
      if k == 0 then acc.reverse :: chunk72Aux rest [c] 71
      else chunk72Aux rest (c :: acc) (k - 1)
    else
      if acc.isEmpty then chunk72Aux rest [] 72
      else acc.reverse :: chunk72Aux rest [] 72

/-- `content.match(/.{1,72}/g)` (an empty match list models `null`). -/
def chunk72 (content : List Char) : List (List Char) :=
  chunk72Aux content [] 72

/-- CRLF. -/
def crlf : List Char := ['\r', '\n']

/-- One attachment part of the mixed multipart body. -/
def attachmentPart (mixedBoundary now : List Char) (a : Attachment) : List Char :=
  let mimeType := if jsTruthy a.mimeType then a.mimeType.getD [] else getMimeType a.filename
  str "--" ++ mixedBoundary ++ crlf ++
  str "Content-Type: " ++ mimeType ++ str "; name=\"" ++ a.filename ++ str "\"\r\n" ++
  str "Content-Description: " ++ a.filename ++ crlf ++
  str "Content-Disposition: attachment; filename=\"" ++ a.filename ++ str "\";\r\n" ++
  str "    creation-date=\"" ++ now ++ str "\";\r\n" ++
  str "Content-Transfer-Encoding: base64\r\n\r\n" ++
  (match chunk72 a.content with
   | [] => a.content
   | ls => List.intercalate crlf ls) ++
  str "\r\n\r\n"

/-- The rendered (pre-dot-stuffing) message of `Email.getEmailData`: resolved
header block, mixed/alternative MIME structure with quoted-printable bodies,
attachments, closing boundaries. -/
def emailData (e : EmailRec) (h : HList) (r : Rand) : List Char :=
  let mixedBoundary := generateSafeBoundary (str "mixed_") r.mixedHex
  let alternativeBoundary := generateSafeBoundary (str "alternative_") r.altHex
  let headersArray :=
    [str "MIME-Version: 1.0"] ++ h.map (fun p => p.1 ++ str ": " ++ p.2) ++
    [str "Content-Type: multipart/mixed; boundary=\"" ++ mixedBoundary ++ str "\""]
  List.intercalate crlf headersArray ++ str "\r\n\r\n" ++
  str "--" ++ mixedBoundary ++ crlf ++
  str "Content-Type: multipart/alternative; boundary=\"" ++ alternativeBoundary ++
    str "\"\r\n\r\n" ++
  (if jsTruthy e.text then
    str "--" ++ alternativeBoundary ++ crlf ++
    str "Content-Type: text/plain; charset=\"UTF-8\"\r\n" ++
    str "Content-Transfer-Encoding: quoted-printable\r\n\r\n" ++
    encodeQuotedPrintable (utf8Encode (e.text.getD [])) ++ str "\r\n\r\n"
   else []) ++
  (if jsTruthy e.html then
    str "--" ++ alternativeBoundary ++ crlf ++
    str "Content-Type: text/html; charset=\"UTF-8\"\r\n" ++
    str "Content-Transfer-Encoding: quoted-printable\r\n\r\n" ++
    encodeQuotedPrintable (utf8Encode (e.html.getD [])) ++ str "\r\n\r\n"
   else []) ++
  str "--" ++ alternativeBoundary ++ str "--\r\n" ++
  (match e.attachments with
   | none => []
   | some l => concatMap (attachmentPart mixedBoundary r.now) l) ++
  str "--" ++ mixedBoundary ++ str "--\r\n"

/-- `Email.getEmailData`: resolve headers (mutating the email), render, apply
dot-stuffing, append the `\r\n.\r\n` terminator. -/
def getEmailData (e : EmailRec) (r : Rand) : List Char × EmailRec :=
  let h := resolveHeader e e.headers r
  (applyDotStuffing (emailData e h r) ++ str "\r\n.\r\n", { e with headers := h })

/-- Supported SMTP authentication mechanisms. -/
inductive AuthKind where
  | plain
  | login
  | cramMD5
  deriving DecidableEq

/-- Username/password pair. -/
structure Credentials where
  username : List Char
  password : List Char
  deriving DecidableEq

/-- The mailer state consulted by `WorkerMailer.auth`: whether the EHLO reply
advertised AUTH, the configured credentials and mechanism preference list, and
the server-advertised mechanism list. -/
structure AuthConfig where
  allowAuth : Bool
  credentials : Option Credentials
  authType : List AuthKind
  authTypeSupported : List AuthKind
  deriving DecidableEq

/-- What `auth` decides to do. -/
inductive AuthAction where
  | skip
  | use (t : AuthKind)
  deriving DecidableEq

/-- `WorkerMailer.auth`: skip when the server does not advertise AUTH; fail
when it does but no credentials are configured; otherwise pick plain, then
login, then cram-md5, each gated on both server support and configuration;
fail when nothing matches. -/
def auth (s : AuthConfig) : Except (List Char) AuthAction :=
  if !s.allowAuth then .ok .skip
  else if s.credentials.isNone then
    .error (str "smtp server requires authentication, but no credentials found")
  else if s.authTypeSupported.contains .plain && s.authType.contains .plain then
    .ok (.use .plain)
  else if s.authTypeSupported.contains .login && s.authType.contains .login then
    .ok (.use .login)
  else if s.authTypeSupported.contains .cramMD5 && s.authType.contains .cramMD5 then
    .ok (.use .cramMD5)
  else .error (str "No supported auth method found.")

/-- Modelled from the spec: the mechanism the spec says should win — the
first of the *configured preference list* that the server also supports. -/
def preferredSelect (authType authTypeSupported : List AuthKind) : Option AuthKind :=
  authType.find? (fun t => authTypeSupported.contains t)

/-- The selection the code actually performs: the first mechanism in the fixed
order plain, login, cram-md5 that is both server-supported and configured. -/
def fixedOrderSelect (authTypeSupported authType : List AuthKind) : Option AuthKind :=
  [AuthKind.plain, AuthKind.login, AuthKind.cramMD5].find?
    (fun t => authTypeSupported.contains t && authType.contains t)

/-- `WorkerMailer.notificationBuilder`: the NOTIFY parameter appended to each
RCPT command, from the per-message override NOTIFY object (when present) or
else the session default. -/
def notificationBuilder (ov sess : Option NotifyFlags) : List Char :=
  let notifications : List (List Char) :=
    (if (ov.isSome && (ov.map (·.SUCCESS)).getD false) ||
        (!ov.isSome && (sess.map (·.SUCCESS)).getD false) then [str "SUCCESS"] else []) ++
    (if (ov.isSome && (ov.map (·.FAILURE)).getD false) ||
        (!ov.isSome && (sess.map (·.FAILURE)).getD false) then [str "FAILURE"] else []) ++
    (if (ov.isSome && (ov.map (·.DELAY)).getD false) ||
        (!ov.isSome && (sess.map (·.DELAY)).getD false) then [str "DELAY"] else [])
  if notifications.length > 0 then
    str " NOTIFY=" ++ List.intercalate (str ",") notifications
  else str " NOTIFY=NEVER"

/-- `WorkerMailer.retBuilder`: the RET parameter of MAIL FROM. -/
def retBuilder (ov sess : Option RetFlags) : List Char :=
  let ret : List (List Char) :=
    (if (ov.isSome && (ov.map (·.HEADERS)).getD false) ||
        (!ov.isSome && (sess.map (·.HEADERS)).getD false) then [str "HDRS"] else []) ++
    (if (ov.isSome && (ov.map (·.FULL)).getD false) ||
        (!ov.isSome && (sess.map (·.FULL)).getD false) then [str "FULL"] else [])
  if ret.length > 0 then str "RET=" ++ List.intercalate (str ",") ret else []

/-- The RCPT TO command line built by `WorkerMailer.rcpt` for one recipient. -/
def rcptCommand (supportsDSN : Bool) (ov sess : Option NotifyFlags) (u : EmailUser) :
    List Char :=
  str "RCPT TO: <" ++ u.email ++ str ">" ++
    (if supportsDSN then notificationBuilder ov sess else [])

/-- The MAIL FROM command line built by `WorkerMailer.mail`. -/
def mailCommand (supportsDSN : Bool) (ovd : Option DsnOverride) (sess : SessionDsn)
    (fromEmail : List Char) : List Char :=
  let base := str "MAIL FROM: <" ++ fromEmail ++ str ">"
  if supportsDSN then
    let base := base ++ str " " ++ retBuilder (ovd.bind (·.RET)) sess.RET
    if jsTruthy (ovd.bind (·.envelopeId)) then
      base ++ str " ENVID=" ++ (ovd.bind (·.envelopeId)).getD []
    else base
  else base

/-- JavaScript `\s` (the whitespace class of the challenge regex). -/
def isSpaceJS (c : Char) : Bool :=
  c == ' ' || c == '\t' || c == '\n' || c == '\r' ||
  c.toNat == 11 || c.toNat == 12 || c.toNat == 160 || c.toNat == 65279

/-- Backtracking of `\s+` in `/^334\s+(.+)$/`: try the longest whitespace run
first and shrink; `(.+)$` succeeds on the remainder only when it is non-empty
and every character is dot-matchable up to the very end of the input (no `m`
flag, so `$` is the end of the whole string and `.` excludes both `\r` and
`\n`). -/
def cramLoop (rest : List Char) : Nat → Option (List Char)
  | 0 => none
  | Nat.succ j =>
    let rem := rest.drop (Nat.succ j)
    if !rem.isEmpty && rem.all dotMatch then some rem else cramLoop rest j

/-- `challengeResponse.match(/^334\s+(.+)$/)?.pop()`: the captured challenge
group, or `none` when the regex does not match. -/
def matchCramChallenge : List Char → Option (List Char)
  | '3' :: '3' :: '4' :: rest => cramLoop rest ((rest.takeWhile isSpaceJS).length)
  | _ => none

/-- The challenge-extraction step of `WorkerMailer.authWithCramMD5`: a failed
match throws `Invalid CRAM-MD5 challenge`. -/
def extractChallenge (response : List Char) : Except (List Char) (List Char) :=
  match matchCramChallenge response with
  | some c => .ok c
  | none => .error (str "Invalid CRAM-MD5 challenge: " ++ response)

/-- The constructor options relevant to the timeout wiring. -/
structure WorkerMailerOptions where
  socketTimeoutMs : Option Nat
  responseTimeoutMs : Option Nat
  deriving DecidableEq

/-- JavaScript `a || d` on an optional number: `undefined` and `0` are falsy. -/
def jsOrNat : Option Nat → Nat → Nat
  | none, d => d
  | some n, d => if n == 0 then d else n

/-- `this.socketTimeoutMs = options.socketTimeoutMs || 60_000`. -/
def mkSocketTimeoutMs (o : WorkerMailerOptions) : Nat :=
  jsOrNat o.socketTimeoutMs 60000

/-- `this.responseTimeoutMs = options.socketTimeoutMs || 30_000` (sic — the
constructor reads `socketTimeoutMs` here). -/
def mkResponseTimeoutMs (o : WorkerMailerOptions) : Nat :=
  jsOrNat o.socketTimeoutMs 30000

/-- The timeout raced against every reply read (`WorkerMailer.readTimeout`
races `this.read()` against `this.responseTimeoutMs`). -/
def readTimeoutLimitMs (o : WorkerMailerOptions) : Nat :=
  mkResponseTimeoutMs o

/-- Outcome delivered through an email's completion signal. -/
inductive Outcome where
  | sent
  | failed (reason : List Char)
  deriving DecidableEq

/-- An email in the queue, together with the randomness its eventual
rendering will draw. -/
structure QueuedEmail where
  email : EmailRec
  rand : Rand
  deriving DecidableEq

/-- The session state of `WorkerMailer` relevant to the processing loop and
`close`. -/
structure SessionSt where
  active : Bool
  emailSending : Option QueuedEmail
  queue : List QueuedEmail
  supportsDSN : Bool
  dsn : SessionDsn
  deriving DecidableEq

/-- Which teardown steps of `close` fail in the environment at hand. -/
structure TeardownFaults where
  writeFails : Bool
  readFails : Bool
  closeFails : Bool
  deriving DecidableEq

/-- The `QUIT`/read/socket-close sequence inside `close`'s `try` block; any
step may throw. -/
def quitTeardown (f : TeardownFaults) : Except (List Char) Unit :=
  if f.writeFails then .error (str "socket write failed")
  else if f.readFails then .error (str "Timeout while waiting for smtp server response")
  else if f.closeFails then .error (str "socket close failed")
  else .ok ()

/-- What `close` produced: the final session state, the completion outcomes
it assigned, and the commands whose write it attempted. -/
structure CloseResult where
  session : SessionSt
  outcomes : List (QueuedEmail × Outcome)
  commands : List (List Char)
  deriving DecidableEq

/-- `WorkerMailer.close`: clear `active`, fail the in-flight email and every
queued email with the supplied reason (default `WorkerMailer is shutting
down`), then attempt QUIT/read/socket-close, swallowing every error of that
teardown. -/
def close (s : SessionSt) (error : Option (List Char)) (f : TeardownFaults) :
    Except (List Char) CloseResult :=
  let reason := error.getD (str "WorkerMailer is shutting down")
  let inflight : List (QueuedEmail × Outcome) :=
    match s.emailSending with
    | some e => [(e, Outcome.failed reason)]
    | none => []
  let drained := s.queue.map (fun e => (e, Outcome.failed reason))
  match quitTeardown f with
  | .ok _ =>
    .ok ⟨{ s with active := false, queue := [] }, inflight ++ drained, [str "QUIT\r\n"]⟩
  | .error _ =>
    .ok ⟨{ s with active := false, queue := [] }, inflight ++ drained, [str "QUIT\r\n"]⟩

/-- Take the next complete server reply from the scripted response list. -/
def takeResp : List (List Char) → List Char × List (List Char)
  | [] => ([], [])
  | r :: rest => (r, rest)

/-- `response.startsWith(c)` on the first character of a reply. -/
def startsWithChar (resp : List Char) (c : Char) : Bool :=
  resp.head? == some c

/-- The RCPT phase: one RCPT command per recipient in order, stopping at the
first non-2xx reply with an `Invalid ...` error. -/
def rcptLoop (supportsDSN : Bool) (ov sess : Option NotifyFlags) :
    List EmailUser → List (List Char) →
    List (List Char) × List (List Char) × Option (List Char)
  | [], script => ([], script, none)
  | u :: us, script =>
    let cmd := rcptCommand supportsDSN ov sess u
    let (resp, script') := takeResp script
    if startsWithChar resp '2' then
      let (cmds, script'', err) := rcptLoop supportsDSN ov sess us script'
      ((cmd ++ crlf) :: cmds, script'', err)
    else
      ([cmd ++ crlf], script', some (str "Invalid " ++ cmd ++ str " " ++ resp))

/-- One full MAIL/RCPT/DATA/body transaction of the processing loop, against
a scripted server: the commands written, the remaining script, and the error
(if any) that would be thrown. -/
def transaction (supportsDSN : Bool) (sess : SessionDsn) (e : QueuedEmail)
    (script : List (List Char)) :
    List (List Char) × List (List Char) × Option (List Char) :=
  let mcmd := mailCommand supportsDSN e.email.dsnOverride sess e.email.from_.email
  let (r1, s1) := takeResp script
  if !startsWithChar r1 '2' then
    ([mcmd ++ crlf], s1, some (str "Invalid " ++ mcmd ++ str " " ++ r1))
  else
    let (rcmds, s2, rerr) :=
      rcptLoop supportsDSN (e.email.dsnOverride.bind (·.NOTIFY)) sess.NOTIFY e.email.to s1
    match rerr with
    | some err => ((mcmd ++ crlf) :: rcmds, s2, some err)
    | none =>
      let (r3, s3) := takeResp s2
      if !startsWithChar r3 '3' then
        ((mcmd ++ crlf) :: rcmds ++ [str "DATA\r\n"], s3,
          some (str "Failed to send DATA: " ++ r3))
      else
        let body := (getEmailData e.email e.rand).1
        let (r4, s4) := takeResp s3
        if !startsWithChar r4 '2' then
          ((mcmd ++ crlf) :: rcmds ++ [str "DATA\r\n", body], s4,
            some (str "Failed send email body: " ++ r4))
        else
          ((mcmd ++ crlf) :: rcmds ++ [str "DATA\r\n", body], s4, none)

/-- What a run of the processing loop produced. -/
structure LoopResult where
  commands : List (List Char)
  session : SessionSt
  outcomes : List (QueuedEmail × Outcome)
  deriving DecidableEq

/-- `WorkerMailer.start`, at transaction granularity over a scripted server:
while `active`, dequeue an email and run its transaction; on success signal
sent; on failure signal the error, then RSET, falling back to `close` when
RSET is itself rejected. An inactive session issues nothing. -/
def runStart (f : TeardownFaults) : Nat → SessionSt → List (List Char) → LoopResult
  | 0, s, _ => ⟨[], s, []⟩
  | Nat.succ fuel, s, script =>
    if !s.active then ⟨[], s, []⟩
    else
      match s.queue with
      | [] => ⟨[], s, []⟩
      | e :: rest =>
        let s1 : SessionSt := { s with emailSending := some e, queue := rest }
        let (cmds, script', err) := transaction s.supportsDSN s.dsn e script
        match err with
        | none =>
          let res := runStart f fuel { s1 with emailSending := none } script'
          ⟨cmds ++ res.commands, res.session, (e, Outcome.sent) :: res.outcomes⟩
        | some msg =>
          if !s1.active then ⟨cmds, s1, []⟩
          else
            let (rresp, script'') := takeResp script'
            if startsWithChar rresp '2' then
              let res := runStart f fuel { s1 with emailSending := none } script''
              ⟨cmds ++ [str "RSET\r\n"] ++ res.commands, res.session,
                (e, Outcome.failed msg) :: res.outcomes⟩
            else
              match close s1 (some (str "Failed to reset: " ++ rresp)) f with
              | .ok cr =>
                ⟨cmds ++ [str "RSET\r\n"] ++ cr.commands, cr.session,
                  (e, Outcome.failed msg) :: cr.outcomes⟩
              | .error _ => ⟨cmds ++ [str "RSET\r\n"], s1, [(e, Outcome.failed msg)]⟩

/-- `WorkerMailer.send`: construct the `Email` (which may throw
synchronously, before anything is enqueued or written), then enqueue it. -/
def send (s : SessionSt) (options : EmailOptions) (r : Rand) :
    Except (List Char) Unit × SessionSt :=
  match emailCtor options with
  | .error msg => (.error msg, s)
  | .ok rec => (.ok (), { s with queue := s.queue ++ [⟨rec, r⟩] })

/-- Modelled from the spec: the NOTIFY value is the comma-join of the
requested SUCCESS/FAILURE/DELAY flags in that order, or the literal NEVER
when none is set. -/
def specNotifyValue (flags : NotifyFlags) : List Char :=
  let requested : List (List Char) :=
    (if flags.SUCCESS then [str "SUCCESS"] else []) ++
    (if flags.FAILURE then [str "FAILURE"] else []) ++
    (if flags.DELAY then [str "DELAY"] else [])
  if requested.isEmpty then str "NEVER"
  else List.intercalate (str ",") requested

/-- Modelled from the spec: the flags in effect — the per-message override
NOTIFY object replaces the session default whenever it is present at all,
and absent flags count as false. -/
def effectiveNotify (ov sess : Option NotifyFlags) : NotifyFlags :=
  match ov with
  | some o => o
  | none => sess.getD ⟨false, false, false⟩

/-- A concrete email for the C6 run-twice experiment. -/
def c6email : EmailRec :=
  ⟨⟨none, str "alice@example.com"⟩, [⟨none, str "bob@example.com"⟩], none, none, none,
    str "Hi", some (str "Hello\r\n.dot"), none, none, none, []⟩

/-- Boundary/date/uuid draws of the first encoder run. -/
def c6r1 : Rand := ⟨str "aa", str "bb", str "Mon, 01 Jan 2024 00:00:00 GMT", str "uuid-1"⟩

/-- Fresh draws of a second encoder run (different boundaries). -/
def c6r2 : Rand := ⟨str "cccc", str "dd", str "Tue, 02 Jan 2024 00:00:00 GMT", str "uuid-2"⟩

/-- Second-run draws agreeing with the first on boundaries and time. -/
def c6r1' : Rand := ⟨str "aa", str "bb", str "Mon, 01 Jan 2024 00:00:00 GMT", str "uuid-OTHER"⟩

/-- The completion outcomes `close` assigns: the in-flight email (if any) and
every queued email fail with the given reason. -/
def closedOutcomes (s : SessionSt) (reason : List Char) : List (QueuedEmail × Outcome) :=
  (match s.emailSending with
   | some e => [(e, Outcome.failed reason)]
   | none => []) ++ s.queue.map (fun e => (e, Outcome.failed reason))

example : encodeQuotedPrintable (bytesOf "2+2=4") = str "2+2=3D4" := by decide

example : encodeQuotedPrintable (bytesOf "Line 1\nLine 2") = str "Line 1\r\nLine 2" := by decide

example : encodeQuotedPrintable (bytesOf "Line 1\rLine 2") = str "Line 1=0DLine 2" := by decide

example : encodeQuotedPrintable (bytesOf "Hello \nWorld") = str "Hello=20\r\nWorld" := by decide

example : encodeQuotedPrintable (bytesOf "Hello\t\nWorld") = str "Hello=09\r\nWorld" := by decide

example : encodeQuotedPrintable (bytesOf "\n\n\n") = str "\r\n\r\n\r\n" := by decide

example : encodeQuotedPrintable (bytesOf "世") = str "=E4=B8=96" := by decide

example : qpDecode (encodeQuotedPrintable (bytesOf "Hello 世界!")) = bytesOf "Hello 世界!" := by decide

example : qpDecode (encodeQuotedPrintable (bytesOf "a\nb")) = bytesOf "a\r\nb" := by decide

example : normalizeNewlines (bytesOf "a\nb\r\nc\rd") = bytesOf "a\r\nb\r\nc\rd" := by decide
-- long-line soft break check

example : encodeQuotedPrintable (List.replicate 100 97) =
    List.replicate 73 'a' ++ str "=\r\n" ++ List.replicate 27 'a' := by decide

theorem char_toNat_ofNat (b : Nat) (h : b < 55296) : (Char.ofNat b).toNat = b := by
  have hv : Nat.isValidChar b := Or.inl h
  simp only [Char.ofNat, hv, dite_true, dif_pos]
  simp [Char.ofNatAux, Char.toNat, Nat.toUInt32, UInt32.toNat, UInt32.ofNatCore]

theorem qpDecode_lit (c : Char) (rest : List Char) (hc : c ≠ '=') :
    qpDecode (c :: rest) = c.toNat :: qpDecode rest := by
  rw [qpDecode.eq_def]
  split <;> simp_all

theorem hexDigitChar_ne_cr (n : Nat) (h : n < 16) : hexDigitChar n ≠ '\r' := by
  interval_cases n <;> decide

theorem qpDecode_esc (h1 h2 : Char) (rest : List Char) (hne : h1 ≠ '\r') :
    qpDecode ('=' :: h1 :: h2 :: rest) = (hexVal h1 * 16 + hexVal h2) :: qpDecode rest := by
  rw [qpDecode.eq_def]
  split
  · simp_all
  · simp_all
  · simp_all
  · rename_i c r hm1 hm2 heq
    exfalso
    injection heq with e1 e2
    exact hm2 h1 h2 rest e1.symm e2.symm

theorem hexVal_hexDigitChar (n : Nat) (h : n < 16) : hexVal (hexDigitChar n) = n := by
  interval_cases n <;> decide

theorem qpDecode_encByte (b : Nat) (hb : b < 256) (tail : List Char) :
    qpDecode (encByte b ++ tail) = b :: qpDecode tail := by
  have hdiv : b / 16 < 16 := Nat.div_lt_of_lt_mul (by omega)
  have hmod : b % 16 < 16 := Nat.mod_lt _ (by omega)
  show qpDecode ('=' :: hexDigitChar (b / 16) :: hexDigitChar (b % 16) :: tail) = _
  rw [qpDecode_esc _ _ _ (hexDigitChar_ne_cr _ hdiv),
      hexVal_hexDigitChar _ hdiv, hexVal_hexDigitChar _ hmod]
  congr 1
  omega

theorem qpDecode_qpEncChar (b : Nat) (rest : List Nat) (tail : List Char) (hb : b < 256) :
    qpDecode (qpEncChar b rest ++ tail) = b :: qpDecode tail := by
  by_cases h13 : b = 13
  · simp only [qpEncChar, h13]
    rw [show ((13 : Nat) == 13) = true from rfl]
    simp only [if_true, List.cons_append, List.nil_append]
    rw [qpDecode_esc _ _ _ (by decide)]
    rfl
  · by_cases hne : qpNeedsEncoding b rest = true
    · simp only [qpEncChar, beq_iff_eq, h13, if_false, hne, if_true]
      exact qpDecode_encByte b hb tail
    · have hn2 : qpNeedsEncoding b rest = false := by
        cases hx : qpNeedsEncoding b rest
        · rfl
        · exact absurd hx hne
      simp only [qpEncChar, beq_iff_eq, h13, if_false, hn2, Bool.false_eq_true,
        List.cons_append, List.nil_append]
      have hb126 : b ≤ 126 := by
        by_contra hgt
        have hlt : 126 < b := by omega
        exact hne (by simp [qpNeedsEncoding, hlt])
      have hb61 : b ≠ 61 := by
        intro h
        subst h
        exact hne (by simp [qpNeedsEncoding])
      have hch : Char.ofNat b ≠ '=' := by
        intro heq
        have := congrArg Char.toNat heq
        rw [char_toNat_ofNat b (by omega)] at this
        exact hb61 (by simpa using this)
      rw [qpDecode_lit _ _ hch, char_toNat_ofNat b (by omega)]

theorem qpAux_roundtrip (L : Nat) (l : List Nat) (len : Nat) :
    (∀ b ∈ l, b < 256) → qpDecode (qpAux L l len) = normalizeNewlines l := by
  induction l, len using qpAux.induct L with
  | case1 x => intro _; rfl
  | case2 rest x ih =>
    intro hb
    have hb' : ∀ b ∈ rest, b < 256 := fun b h => hb b (List.mem_cons_of_mem _ h)
    rw [show qpAux L (10 :: rest) x = '\r' :: '\n' :: qpAux L rest 0 from rfl,
      qpDecode_lit _ _ (by decide), qpDecode_lit _ _ (by decide), ih hb']
    rfl
  | case3 rest x ih =>
    intro hb
    have hb' : ∀ b ∈ rest, b < 256 := fun b h =>
      hb b (List.mem_cons_of_mem _ (List.mem_cons_of_mem _ h))
    rw [show qpAux L (13 :: 10 :: rest) x = '\r' :: '\n' :: qpAux L rest 0 from rfl,
      qpDecode_lit _ _ (by decide), qpDecode_lit _ _ (by decide), ih hb']
    rfl
  | case4 b rest len h10 h1310 hcond ih =>
    intro hb
    have hb0 : b < 256 := hb b (List.mem_cons_self _ _)
    have hb' : ∀ x ∈ rest, x < 256 := fun x h => hb x (List.mem_cons_of_mem _ h)
    rw [qpAux.eq_4 L len b rest h10 h1310]
    simp only [if_pos hcond]
    rw [show ∀ X, qpDecode ('=' :: '\r' :: '\n' :: X) = qpDecode X from fun X => rfl,
      qpDecode_qpEncChar b rest _ hb0, ih hb',
      normalizeNewlines.eq_4 b rest h10 h1310]
  | case5 b rest len h10 h1310 hcond ih =>
    intro hb
    have hb0 : b < 256 := hb b (List.mem_cons_self _ _)
    have hb' : ∀ x ∈ rest, x < 256 := fun x h => hb x (List.mem_cons_of_mem _ h)
    rw [qpAux.eq_4 L len b rest h10 h1310]
    simp only [if_neg hcond]
    rw [qpDecode_qpEncChar b rest _ hb0, ih hb',
      normalizeNewlines.eq_4 b rest h10 h1310]

theorem splitCRLF_ne_nil (s : List Char) : splitCRLF s ≠ [] := by
  induction s using splitCRLF.induct with
  | case1 => simp [splitCRLF]
  | case2 rest ih => simp [splitCRLF]
  | case3 c rest h1 l ls hm ih =>
    rw [splitCRLF.eq_3 c rest h1, hm]
    simp
  | case4 c rest h1 hm ih =>
    rw [splitCRLF.eq_3 c rest h1, hm]
    simp

theorem dotStuff_head (s : List Char) : (dotStuff s).head? = s.head? := by
  induction s using dotStuff.induct with
  | case1 rest ih => rfl
  | case2 c rest h1 ih =>
    rw [dotStuff.eq_2 c rest h1]
    rfl
  | case3 => rfl

theorem joinCRLF_cons_append (x l : List Char) (ls : List (List Char)) :
    joinCRLF ((x ++ l) :: ls) = x ++ joinCRLF (l :: ls) := by
  cases ls with
  | nil => rfl
  | cons a as => simp [joinCRLF]

theorem stuffLine_eq (l : List Char) : stuffLine l = dotMark l ++ l := by
  unfold stuffLine dotMark
  split <;> simp_all

theorem joinJ_eq (s : List Char) :
    joinCRLF ((splitCRLF s).map stuffLine) =
      dotMark s ++ joinCRLF (stuffTailLines (splitCRLF s)) := by
  induction s using splitCRLF.induct with
  | case1 => rfl
  | case2 rest ih =>
    show joinCRLF ((([] : List Char) :: splitCRLF rest).map stuffLine) = _
    rw [List.map_cons]
    rfl
  | case3 c rest h1 l ls hm ih =>
    rw [splitCRLF.eq_3 c rest h1, hm]
    simp only [List.map_cons, stuffTailLines]
    rw [stuffLine_eq (c :: l),
      joinCRLF_cons_append (dotMark (c :: l)) (c :: l) (ls.map stuffLine)]
    congr 1
  | case4 c rest h1 hm ih => exact absurd hm (splitCRLF_ne_nil rest)

theorem stuffTail_join_eq_dotStuff (s : List Char) :
    joinCRLF (stuffTailLines (splitCRLF s)) = dotStuff s := by
  induction s using splitCRLF.induct with
  | case1 => rfl
  | case2 rest ih =>
    show joinCRLF (stuffTailLines (([] : List Char) :: splitCRLF rest)) = _
    rcases hm : splitCRLF rest with _ | ⟨l, ls⟩
    · exact absurd hm (splitCRLF_ne_nil rest)
    · rw [show stuffTailLines ([] :: l :: ls) = [] :: stuffLine l :: ls.map stuffLine from rfl]
      rw [show joinCRLF ([] :: stuffLine l :: ls.map stuffLine) =
        '\r' :: '\n' :: joinCRLF (stuffLine l :: ls.map stuffLine) from rfl]
      have h3 : joinCRLF (stuffLine l :: ls.map stuffLine) =
          joinCRLF ((splitCRLF rest).map stuffLine) := by
        rw [hm]; rfl
      rw [h3, joinJ_eq rest, ih]
      rcases rest with _ | ⟨c2, r2⟩
      · rfl
      · by_cases hc2 : c2 = '.'
        · subst hc2
          rw [show dotStuff ('\r' :: '\n' :: '.' :: r2) =
              '\r' :: '\n' :: '.' :: '.' :: dotStuff r2 from rfl]
          rw [show dotStuff ('.' :: r2) = '.' :: dotStuff r2 from rfl]
          rfl
        · have e1 : dotStuff ('\r' :: '\n' :: c2 :: r2) =
              '\r' :: dotStuff ('\n' :: c2 :: r2) :=
            dotStuff.eq_2 '\r' ('\n' :: c2 :: r2) (by
              intro r1 _ h
              injection h with _ h2
              injection h2 with hc _
              exact hc2 hc)
          have e2 : dotStuff ('\n' :: c2 :: r2) = '\n' :: dotStuff (c2 :: r2) :=
            dotStuff.eq_2 '\n' (c2 :: r2) (by intro r1 h; exact absurd h (by decide))
          rw [e1, e2]
          have e3 : dotMark (c2 :: r2) = [] := by simp [dotMark, hc2]
          rw [e3]
          rfl
  | case3 c rest h1 l ls hm ih =>
    rw [splitCRLF.eq_3 c rest h1, hm]
    rw [show stuffTailLines ((c :: l) :: ls) = (c :: l) :: ls.map stuffLine from rfl]
    rw [show (c :: l) = [c] ++ l from rfl, joinCRLF_cons_append [c] l (ls.map stuffLine)]
    have h3 : joinCRLF (l :: ls.map stuffLine) =
        joinCRLF (stuffTailLines (splitCRLF rest)) := by
      rw [hm]; rfl
    rw [h3, ih, dotStuff.eq_2 c rest (fun r1 hc hr => h1 ('.' :: r1) hc hr)]
    rfl
  | case4 c rest h1 hm ih => exact absurd hm (splitCRLF_ne_nil rest)

theorem applyDotStuffing_eq_stuffLines (s : List Char) :
    applyDotStuffing s = joinCRLF ((splitCRLF s).map stuffLine) := by
  rw [joinJ_eq s, stuffTail_join_eq_dotStuff s]
  simp only [applyDotStuffing]
  rw [dotStuff_head s]
  unfold dotMark
  split <;> simp_all

theorem hGet_hSet_self (h : HList) (k v : List Char) : hGet (hSet h k v) k = some v := by
  induction h with
  | nil => simp [hSet, hGet, List.find?]
  | cons p rest ih =>
    by_cases hp : p.1 = k
    · have hb : (p.1 == k) = true := by simpa using hp
      simp [hSet, hb, hGet, List.find?_cons_of_pos]
    · have hb : (p.1 == k) = false := by simpa using hp
      simp only [hSet, hb, Bool.false_eq_true, if_false]
      simpa [hGet, List.find?_cons_of_neg, hb] using ih

theorem hGet_hSet_ne (h : HList) (k v k2 : List Char) (hne : k2 ≠ k) :
    hGet (hSet h k v) k2 = hGet h k2 := by
  have hkk2 : (k == k2) = false := by simpa using hne.symm
  induction h with
  | nil => simp [hSet, hGet, List.find?_cons_of_neg, hkk2, List.find?]
  | cons p rest ih =>
    by_cases hp : p.1 = k
    · have hb : (p.1 == k) = true := by simpa using hp
      have hp2 : (p.1 == k2) = false := by
        simp only [beq_eq_false_iff_ne]
        rw [hp]
        exact hne.symm
      simp [hSet, hb, hGet, List.find?_cons_of_neg, hp2, hkk2]
    · have hb : (p.1 == k) = false := by simpa using hp
      by_cases hq : p.1 = k2
      · have hq2 : (p.1 == k2) = true := by simpa using hq
        simp [hSet, hb, hGet, List.find?_cons_of_pos, hq2]
      · have hq2 : (p.1 == k2) = false := by simpa using hq
        simp only [hSet, hb, Bool.false_eq_true, if_false]
        simpa [hGet, List.find?_cons_of_neg, hq2] using ih

theorem hSet_self_of_get (h : HList) (k v : List Char) (hv : hGet h k = some v) :
    hSet h k v = h := by
  induction h with
  | nil => simp [hGet, List.find?] at hv
  | cons p rest ih =>
    by_cases hp : p.1 = k
    · have hb : (p.1 == k) = true := by simpa using hp
      have hvp : v = p.2 := by
        simp [hGet, List.find?_cons_of_pos, hb] at hv
        exact hv.symm
      simp only [hSet, hb, if_true]
      rw [hvp, ← hp]
    · have hb : (p.1 == k) = false := by simpa using hp
      simp only [hSet, hb, Bool.false_eq_true, if_false, List.cons.injEq, true_and]
      apply ih
      simpa [hGet, List.find?_cons_of_neg, hb] using hv

theorem resolveGuarded_get_ne (h : HList) (k : List Char) (v : Option (List Char))
    (k2 : List Char) (hne : k2 ≠ k) :
    hGet (resolveGuarded h k v) k2 = hGet h k2 := by
  unfold resolveGuarded
  split
  · rfl
  · cases v with
    | none => rfl
    | some w => exact hGet_hSet_ne h k w k2 hne

theorem resolveNullish_get_ne (h : HList) (k v : List Char)
    (k2 : List Char) (hne : k2 ≠ k) :
    hGet (resolveNullish h k v) k2 = hGet h k2 :=
  hGet_hSet_ne h k _ k2 hne

theorem resolveGuarded_fix (h : HList) (k : List Char) (v : Option (List Char))
    (hc : jsTruthy (hGet h k) = true ∨ v = none ∨ hGet h k = v) :
    resolveGuarded h k v = h := by
  unfold resolveGuarded
  split
  · rfl
  · rename_i hg
    cases v with
    | none => rfl
    | some w =>
      rcases hc with hc | hc | hc
      · exact absurd hc hg
      · cases hc
      · exact hSet_self_of_get h k w hc

theorem resolveGuarded_post (h : HList) (k : List Char) (v : Option (List Char)) :
    jsTruthy (hGet (resolveGuarded h k v) k) = true ∨ v = none ∨
      hGet (resolveGuarded h k v) k = v := by
  unfold resolveGuarded
  split
  · left; assumption
  · cases v with
    | none => right; left; rfl
    | some w => right; right; exact hGet_hSet_self h k w

theorem resolveNullish_fix (h : HList) (k v : List Char)
    (hc : (hGet h k).isSome = true) :
    resolveNullish h k v = h := by
  obtain ⟨w, hw⟩ := Option.isSome_iff_exists.mp hc
  unfold resolveNullish
  rw [hw]
  exact hSet_self_of_get h k w hw

theorem resolveNullish_post (h : HList) (k v : List Char) :
    (hGet (resolveNullish h k v) k).isSome = true := by
  unfold resolveNullish
  rw [hGet_hSet_self]
  rfl

theorem resolveHeader_idem (e : EmailRec) (h : HList) (r r' : Rand) :
    resolveHeader e (resolveHeader e h r) r' = resolveHeader e h r := by
  set h8 := resolveHeader e h r with hh8
  simp only [resolveHeader]
  have postF : jsTruthy (hGet h8 (str "From")) = true ∨
      (some (fromValue e) = none) ∨ hGet h8 (str "From") = some (fromValue e) := by
    rw [hh8]
    simp only [resolveHeader]
    rw [resolveNullish_get_ne _ _ _ _ (by decide), resolveNullish_get_ne _ _ _ _ (by decide),
      resolveGuarded_get_ne _ _ _ _ (by decide), resolveGuarded_get_ne _ _ _ _ (by decide),
      resolveGuarded_get_ne _ _ _ _ (by decide), resolveGuarded_get_ne _ _ _ _ (by decide),
      resolveGuarded_get_ne _ _ _ _ (by decide)]
    exact resolveGuarded_post _ _ _
  have postT : jsTruthy (hGet h8 (str "To")) = true ∨
      (some (List.intercalate (str ", ") (e.to.map userDisplay)) = none) ∨
      hGet h8 (str "To") = some (List.intercalate (str ", ") (e.to.map userDisplay)) := by
    rw [hh8]
    simp only [resolveHeader]
    rw [resolveNullish_get_ne _ _ _ _ (by decide), resolveNullish_get_ne _ _ _ _ (by decide),
      resolveGuarded_get_ne _ _ _ _ (by decide), resolveGuarded_get_ne _ _ _ _ (by decide),
      resolveGuarded_get_ne _ _ _ _ (by decide), resolveGuarded_get_ne _ _ _ _ (by decide)]
    exact resolveGuarded_post _ _ _
  have postR : jsTruthy (hGet h8 (str "Reply-To")) = true ∨
      (e.reply.map userDisplay = none) ∨
      hGet h8 (str "Reply-To") = e.reply.map userDisplay := by
    rw [hh8]
    simp only [resolveHeader]
    rw [resolveNullish_get_ne _ _ _ _ (by decide), resolveNullish_get_ne _ _ _ _ (by decide),
      resolveGuarded_get_ne _ _ _ _ (by decide), resolveGuarded_get_ne _ _ _ _ (by decide),
      resolveGuarded_get_ne _ _ _ _ (by decide)]
    exact resolveGuarded_post _ _ _
  have postC : jsTruthy (hGet h8 (str "CC")) = true ∨
      (e.cc.map (fun l => List.intercalate (str ", ") (l.map userDisplay)) = none) ∨
      hGet h8 (str "CC") =
        e.cc.map (fun l => List.intercalate (str ", ") (l.map userDisplay)) := by
    rw [hh8]
    simp only [resolveHeader]
    rw [resolveNullish_get_ne _ _ _ _ (by decide), resolveNullish_get_ne _ _ _ _ (by decide),
      resolveGuarded_get_ne _ _ _ _ (by decide), resolveGuarded_get_ne _ _ _ _ (by decide)]
    exact resolveGuarded_post _ _ _
  have postB : jsTruthy (hGet h8 (str "BCC")) = true ∨
      (e.bcc.map (fun l => List.intercalate (str ", ") (l.map userDisplay)) = none) ∨
      hGet h8 (str "BCC") =
        e.bcc.map (fun l => List.intercalate (str ", ") (l.map userDisplay)) := by
    rw [hh8]
    simp only [resolveHeader]
    rw [resolveNullish_get_ne _ _ _ _ (by decide), resolveNullish_get_ne _ _ _ _ (by decide),
      resolveGuarded_get_ne _ _ _ _ (by decide)]
    exact resolveGuarded_post _ _ _
  have postS : jsTruthy (hGet h8 (str "Subject")) = true ∨
      ((if !e.subject.isEmpty then some (encodeHeader e.subject) else none) = none) ∨
      hGet h8 (str "Subject") =
        (if !e.subject.isEmpty then some (encodeHeader e.subject) else none) := by
    rw [hh8]
    simp only [resolveHeader]
    rw [resolveNullish_get_ne _ _ _ _ (by decide), resolveNullish_get_ne _ _ _ _ (by decide)]
    exact resolveGuarded_post _ _ _
  have postD : (hGet h8 (str "Date")).isSome = true := by
    rw [hh8]
    simp only [resolveHeader]
    rw [resolveNullish_get_ne _ _ _ _ (by decide)]
    exact resolveNullish_post _ _ _
  have postM : (hGet h8 (str "Message-ID")).isSome = true := by
    rw [hh8]
    simp only [resolveHeader]
    exact resolveNullish_post _ _ _
  rw [resolveGuarded_fix h8 _ _ postF, resolveGuarded_fix h8 _ _ postT,
    resolveGuarded_fix h8 _ _ postR, resolveGuarded_fix h8 _ _ postC,
    resolveGuarded_fix h8 _ _ postB, resolveGuarded_fix h8 _ _ postS,
    resolveNullish_fix h8 _ _ postD, resolveNullish_fix h8 _ _ postM]

theorem cramLoop_none (init : List Char) (j : Nat) :
    cramLoop (init ++ ['\n']) j = none := by
  induction j with
  | zero => rfl
  | succ j ih =>
    simp only [cramLoop]
    rw [List.drop_append_eq_append_drop]
    by_cases hle : j + 1 ≤ init.length
    · have h0 : j + 1 - init.length = 0 := by omega
      rw [h0]
      have hall : ((init.drop (j + 1)) ++ List.drop 0 ['\n']).all dotMatch = false := by
        simp [List.all_append, dotMatch]
      rw [hall]
      simp only [Bool.and_false, Bool.false_eq_true, if_false]
      exact ih
    · have h1 : init.drop (j + 1) = [] := List.drop_eq_nil_of_le (by omega)
      have h2 : List.drop (j + 1 - init.length) ['\n'] = [] :=
        List.drop_eq_nil_of_le (by simp; omega)
      rw [h1, h2]
      simp only [List.nil_append, List.isEmpty_nil, Bool.not_true, Bool.false_and,
        Bool.false_eq_true, if_false]
      exact ih

theorem matchCram_none_of_ends_lf (init : List Char) :
    matchCramChallenge (init ++ ['\n']) = none := by
  rw [matchCramChallenge.eq_def]
  split
  · rename_i rest heq
    rcases init with _ | ⟨a, _ | ⟨b, _ | ⟨c, init'⟩⟩⟩
    · simp at heq
    · simp at heq
    · simp at heq
    · have heq' : a :: b :: c :: (init' ++ ['\n']) = '3' :: '3' :: '4' :: rest := heq
      injection heq' with e1 heq'
      injection heq' with e2 heq'
      injection heq' with e3 hrest
      rw [← hrest]
      exact cramLoop_none init' _
  · rfl

/-- C1 (counterexample): the claim's exact round-trip fails for a body whose
line break is a bare LF — the encoder normalizes it to CRLF, so the decoder
yields CRLF, not the original LF. -/
theorem qp_roundtrip_exact_cex :
    qpDecode (encodeQuotedPrintable [10]) ≠ [10] := by decide

/-- C1 (amended): encoding with the quoted-printable body encoder and then
decoding with a standards-compliant quoted-printable decoder reproduces the
original byte sequence with line breaks normalized to CRLF: bare LF and CRLF
both come back as CRLF, while every other byte — including a bare CR not
followed by LF, trailing space or tab before a line break, `=`, ASCII and
multi-byte UTF-8 — is reproduced exactly.  In particular the round-trip is
exact whenever the input's line breaks are already CRLF. -/
theorem qp_roundtrip_normalized (lineLength : Nat) (bytes : List Nat)
    (h : ∀ b ∈ bytes, b < 256) :
    qpDecode (encodeQuotedPrintable bytes lineLength) = normalizeNewlines bytes :=
  qpAux_roundtrip lineLength bytes 0 h

/-- C1 (witness): the amended round-trip at a concrete mixed input with a
trailing space before LF, a tab, an equals sign, a bare CR, a CRLF and a
multi-byte UTF-8 character. -/
theorem qp_roundtrip_normalized_witness :
    (∀ b ∈ bytesOf "Hi = \n\tok\r\nx\ry 世", b < 256) ∧
    qpDecode (encodeQuotedPrintable (bytesOf "Hi = \n\tok\r\nx\ry 世") 76) =
      normalizeNewlines (bytesOf "Hi = \n\tok\r\nx\ry 世") :=
  ⟨by decide, qp_roundtrip_normalized 76 _ (by decide)⟩

/-- C2: for every constructed message and every draw of boundaries and header
randomness, the byte payload of `getEmailData` is the rendered body with every
line that begins with `.` (the very first line included) transmitted with a
second `.` prepended, followed by the terminating `\r\n.\r\n`, which is
appended after stuffing and hence not itself subject to it. -/
theorem email_payload_dot_stuffed (e : EmailRec) (r : Rand) :
    (getEmailData e r).1 =
      joinCRLF ((splitCRLF (emailData e (resolveHeader e e.headers r) r)).map stuffLine) ++
        str "\r\n.\r\n" := by
  show applyDotStuffing (emailData e (resolveHeader e e.headers r) r) ++ str "\r\n.\r\n" = _
  rw [applyDotStuffing_eq_stuffLines]

/-- C4: the challenge extraction of `authWithCramMD5` fails on *every*
complete reply block: a complete reply ends with a newline, `(.+)$` cannot
match across it (JavaScript `.` matches neither CR nor LF and `$` without the
`m` flag anchors at the end of the whole string), so the regex never matches
and the code throws `Invalid CRAM-MD5 challenge` instead of answering the
challenge. -/
theorem cram_extraction_always_fails (resp init : List Char)
    (h : resp = init ++ ['\n']) :
    extractChallenge resp = .error (str "Invalid CRAM-MD5 challenge: " ++ resp) := by
  subst h
  unfold extractChallenge
  rw [matchCram_none_of_ends_lf]

/-- C4 (witness): the extraction failure at a well-formed 334 reply carrying a
base64 challenge, terminated by CRLF. -/
theorem cram_extraction_always_fails_witness :
    extractChallenge (str "334 PDE4OTYuNjk3QHBvc3RvZmZpY2U+\r\n") =
      .error (str "Invalid CRAM-MD5 challenge: " ++ str "334 PDE4OTYuNjk3QHBvc3RvZmZpY2U+\r\n") :=
  cram_extraction_always_fails _ (str "334 PDE4OTYuNjk3QHBvc3RvZmZpY2U+\r") rfl

/-- C3 (counterexample): with cram-md5 configured before plain against a
server supporting both, the spec's preference-order selection demands
cram-md5, but `auth` runs PLAIN — the claim fails on the code. -/
theorem auth_preference_order_cex :
    preferredSelect [AuthKind.cramMD5, AuthKind.plain] [AuthKind.plain, AuthKind.cramMD5] =
      some AuthKind.cramMD5 ∧
    auth ⟨true, some ⟨str "u", str "p"⟩, [AuthKind.cramMD5, AuthKind.plain],
      [AuthKind.plain, AuthKind.cramMD5]⟩ = .ok (.use AuthKind.plain) ∧
    AuthKind.plain ≠ AuthKind.cramMD5 :=
  ⟨rfl, rfl, by decide⟩

/-- C3 (amended): when the server advertises AUTH and credentials are
configured, the authenticator runs the first mechanism in the *fixed* order
plain, login, cram-md5 that is both advertised by the server and present in
the configured list (the configured list acts as an unordered set — its order
is ignored); if no mechanism is in both lists it fails with the fatal
`No supported auth method found.` error. -/
theorem auth_fixed_order_selection (s : AuthConfig)
    (h1 : s.allowAuth = true) (h2 : s.credentials.isSome = true) :
    auth s =
      match fixedOrderSelect s.authTypeSupported s.authType with
      | some t => .ok (.use t)
      | none => .error (str "No supported auth method found.") := by
  have h2' : s.credentials.isNone = false := by
    cases hc : s.credentials
    · rw [hc] at h2; simp at h2
    · rfl
  unfold auth fixedOrderSelect
  rw [h1, h2']
  simp only [Bool.not_true, Bool.false_eq_true, if_false, List.find?]
  rcases hp1 : s.authTypeSupported.contains AuthKind.plain
  <;> rcases hp2 : s.authType.contains AuthKind.plain
  <;> rcases hl1 : s.authTypeSupported.contains AuthKind.login
  <;> rcases hl2 : s.authType.contains AuthKind.login
  <;> rcases hc1 : s.authTypeSupported.contains AuthKind.cramMD5
  <;> rcases hc2 : s.authType.contains AuthKind.cramMD5
  <;> simp only [hp1, hp2, hl1, hl2, hc1, hc2, Bool.and_true, Bool.and_false,
        Bool.false_and, Bool.true_and, Bool.false_eq_true, Bool.true_eq_false,
        eq_self_iff_true, if_true, if_false]

/-- C3 (witness): the amended selection at a concrete configuration — login
configured, server advertising plain and login — picks login. -/
theorem auth_fixed_order_selection_witness :
    auth ⟨true, some ⟨str "u", str "p"⟩, [AuthKind.login],
      [AuthKind.plain, AuthKind.login]⟩ = .ok (.use AuthKind.login) := by
  rw [auth_fixed_order_selection _ rfl (by decide)]
  rfl

/-- C5: the NOTIFY parameter of each RCPT command is ` NOTIFY=` followed by
the comma-join (order SUCCESS,FAILURE,DELAY) of the effective flags, or
` NOTIFY=NEVER` when none is set; a present override object fully replaces
the session default (the session value is ignored even if every override
flag is false); and the concrete scenario: session default `{SUCCESS:true}`
emits ` NOTIFY=SUCCESS`, overriding with `{SUCCESS:false}` emits
` NOTIFY=NEVER`. -/
theorem rcpt_notify_parameter :
    (∀ ov sess : Option NotifyFlags,
      notificationBuilder ov sess =
        str " NOTIFY=" ++ specNotifyValue (effectiveNotify ov sess)) ∧
    (∀ (o : NotifyFlags) (sess sess' : Option NotifyFlags),
      notificationBuilder (some o) sess = notificationBuilder (some o) sess') ∧
    rcptCommand true none (some ⟨true, false, false⟩) ⟨none, str "a@b.c"⟩ =
      str "RCPT TO: <a@b.c> NOTIFY=SUCCESS" ∧
    rcptCommand true (some ⟨false, false, false⟩) (some ⟨true, false, false⟩)
        ⟨none, str "a@b.c"⟩ =
      str "RCPT TO: <a@b.c> NOTIFY=NEVER" := by
  refine ⟨?_, ?_, by decide, by decide⟩
  · intro ov sess
    rcases ov with _ | ⟨s1, f1, d1⟩
    · rcases sess with _ | ⟨s2, f2, d2⟩
      · rfl
      · cases s2 <;> cases f2 <;> cases d2 <;> rfl
    · cases s1 <;> cases f1 <;> cases d1 <;> rfl
  · intro o sess sess'
    rcases o with ⟨s1, f1, d1⟩
    cases s1 <;> cases f1 <;> cases d1 <;> rfl

theorem getEmailData_fst (e : EmailRec) (r : Rand) :
    (getEmailData e r).1 =
      applyDotStuffing (emailData e (resolveHeader e e.headers r) r) ++ str "\r\n.\r\n" := rfl

theorem getEmailData_snd (e : EmailRec) (r : Rand) :
    (getEmailData e r).2 = { e with headers := resolveHeader e e.headers r } := rfl

theorem resolveHeader_update_headers (e : EmailRec) (h h' : HList) (r : Rand) :
    resolveHeader { e with headers := h } h' r = resolveHeader e h' r := rfl

theorem emailData_update_headers (e : EmailRec) (h h' : HList) (r : Rand) :
    emailData { e with headers := h } h' r = emailData e h' r := rfl

theorem emailData_rand_eq (e : EmailRec) (h : HList) (r r' : Rand)
    (hm : r'.mixedHex = r.mixedHex) (ha : r'.altHex = r.altHex) (hn : r'.now = r.now) :
    emailData e h r' = emailData e h r := by
  unfold emailData
  rw [hm, ha, hn]

/-- C6 (counterexample): re-running `getEmailData` on the already-resolved
message does *not* produce byte-identical output — fresh random MIME
boundaries are drawn on every call, so the two payloads differ (here even in
length). -/
theorem email_encoder_rerun_cex :
    (getEmailData (getEmailData c6email c6r1).2 c6r2).1 ≠ (getEmailData c6email c6r1).1 := by
  intro hcontra
  exact absurd (congrArg List.length hcontra) (by decide)

/-- C6 (amended): header resolution is idempotent — a second run generates no
second `Message-ID` or `Date` and leaves the whole resolved header map
byte-identical — and the rest of the payload is unchanged up to the freshly
drawn MIME boundaries and attachment creation date: a second run whose
boundary and time draws equal the first run's (the UUID draw may differ
freely, it is not consulted again) produces byte-identical output. -/
theorem email_encoder_second_run (e : EmailRec) (r r' : Rand) :
    resolveHeader e (resolveHeader e e.headers r) r' = resolveHeader e e.headers r ∧
    (r'.mixedHex = r.mixedHex → r'.altHex = r.altHex → r'.now = r.now →
      (getEmailData (getEmailData e r).2 r').1 = (getEmailData e r).1) := by
  refine ⟨resolveHeader_idem e e.headers r r', fun hm ha hn => ?_⟩
  have step1 : (getEmailData (getEmailData e r).2 r').1 =
      applyDotStuffing
        (emailData e (resolveHeader e (resolveHeader e e.headers r) r') r') ++
        str "\r\n.\r\n" := by
    rw [getEmailData_snd e r,
      getEmailData_fst { e with headers := resolveHeader e e.headers r } r',
      show ({ e with headers := resolveHeader e e.headers r } : EmailRec).headers =
        resolveHeader e e.headers r from rfl,
      resolveHeader_update_headers e (resolveHeader e e.headers r)
        (resolveHeader e e.headers r) r',
      emailData_update_headers e (resolveHeader e e.headers r)
        (resolveHeader e (resolveHeader e e.headers r) r') r']
  rw [step1, resolveHeader_idem e e.headers r r', getEmailData_fst e r,
    emailData_rand_eq e (resolveHeader e e.headers r) r r' hm ha hn]

/-- C6 (witness): the amended statement at the concrete message — second-run
header resolution is the identity, and with equal boundary/time draws (only
the UUID differing) the second payload is byte-identical. -/
theorem email_encoder_second_run_witness :
    resolveHeader c6email (resolveHeader c6email c6email.headers c6r1) c6r2 =
      resolveHeader c6email c6email.headers c6r1 ∧
    (getEmailData (getEmailData c6email c6r1).2 c6r1').1 = (getEmailData c6email c6r1).1 :=
  ⟨(email_encoder_second_run c6email c6r1 c6r2).1,
   (email_encoder_second_run c6email c6r1 c6r1').2 rfl rfl rfl⟩

/-- C7: `close` never raises — for every session state, supplied reason and
combination of transport/write/read faults during teardown it returns
normally — it clears the `active` flag, fails the in-flight email (if any)
and every still-queued email with the supplied reason (or the shutdown
default), and the only command whose write it attempts is the final QUIT;
moreover the processing loop issues no command at all once `active` is
false. -/
theorem close_never_raises (s : SessionSt) (err : Option (List Char)) (f : TeardownFaults) :
    close s err f = .ok ⟨{ s with active := false, queue := [] },
      closedOutcomes s (err.getD (str "WorkerMailer is shutting down")), [str "QUIT\r\n"]⟩ ∧
    (∀ (fuel : Nat) (s' : SessionSt) (script : List (List Char)),
      s'.active = false → runStart f fuel s' script = ⟨[], s', []⟩) := by
  constructor
  · unfold close closedOutcomes
    rcases hse : s.emailSending with _ | e <;>
      rcases hq : quitTeardown f with _ | _ <;> rfl
  · intro fuel s' script h
    cases fuel with
    | zero => rfl
    | succ fuel => simp [runStart, h]

/-- C7 (witness): `close` at a concrete session with an in-flight email, a
queued email and every teardown step failing, plus the silent loop on an
inactive session. -/
theorem close_never_raises_witness :
    close ⟨true, some ⟨c6email, c6r1⟩, [⟨c6email, c6r2⟩], false, ⟨none, none⟩⟩ none
        ⟨true, true, true⟩ =
      .ok ⟨⟨false, some ⟨c6email, c6r1⟩, [], false, ⟨none, none⟩⟩,
        [(⟨c6email, c6r1⟩, Outcome.failed (str "WorkerMailer is shutting down")),
         (⟨c6email, c6r2⟩, Outcome.failed (str "WorkerMailer is shutting down"))],
        [str "QUIT\r\n"]⟩ ∧
    runStart ⟨false, false, false⟩ 5
        ⟨false, none, [⟨c6email, c6r1⟩], false, ⟨none, none⟩⟩ [] =
      ⟨[], ⟨false, none, [⟨c6email, c6r1⟩], false, ⟨none, none⟩⟩, []⟩ :=
  ⟨(close_never_raises ⟨true, some ⟨c6email, c6r1⟩, [⟨c6email, c6r2⟩], false, ⟨none, none⟩⟩
      none ⟨true, true, true⟩).1,
   (close_never_raises ⟨true, some ⟨c6email, c6r1⟩, [⟨c6email, c6r2⟩], false, ⟨none, none⟩⟩
      none ⟨true, true, true⟩).2 5 _ [] rfl⟩

/-- C8: the per-response timeout raced against every reply read is *not* the
configured `responseTimeoutMs` — the constructor assigns
`options.socketTimeoutMs || 30_000` to it, so a configuration with
`responseTimeoutMs = 5000` and no `socketTimeoutMs` reads with a 30000 ms
bound, and one with `socketTimeoutMs = 10000` reads with a 10000 ms bound,
the `responseTimeoutMs` field being ignored entirely. -/
theorem response_timeout_option_ignored :
    readTimeoutLimitMs ⟨none, some 5000⟩ = 30000 ∧
    (⟨none, some 5000⟩ : WorkerMailerOptions).responseTimeoutMs = some 5000 ∧
    readTimeoutLimitMs ⟨some 10000, some 5000⟩ = 10000 ∧
    (30000 : Nat) ≠ 5000 :=
  ⟨rfl, rfl, rfl, by decide⟩

/-- C9 (counterexample): a message-options input whose text body is present
but the empty string (and no HTML body) is rejected by the constructor even
though a body is present — JavaScript truthiness treats `''` as absent. -/
theorem email_ctor_empty_body_cex :
    ((⟨.strVal (str "a@b.c"), .one (.strVal (str "d@e.f")), none, none, none,
        str "S", some [], none, none, none, none⟩ : EmailOptions).text).isSome = true ∧
    (emailCtor ⟨.strVal (str "a@b.c"), .one (.strVal (str "d@e.f")), none, none, none,
        str "S", some [], none, none, none, none⟩).isOk = false :=
  ⟨rfl, rfl⟩

/-- C9 (amended): `Email` construction succeeds exactly when at least one of
the two bodies is a *non-empty* string (absent and empty-string bodies both
count as missing); when both are missing, `send` rejects with the
constructor's error before anything is enqueued — the session state is
untouched and no network interaction can occur for that message. -/
theorem email_body_required (o : EmailOptions) (s : SessionSt) (r : Rand) :
    (emailCtor o).isOk = (jsTruthy o.text || jsTruthy o.html) ∧
    (jsTruthy o.text = false → jsTruthy o.html = false →
      send s o r = (.error (str "At least one of text or html must be provided"), s)) := by
  constructor
  · unfold emailCtor
    cases ht : jsTruthy o.text <;> cases hh : jsTruthy o.html <;> simp [Except.isOk, Except.toBool]
  · intro ht hh
    unfold send emailCtor
    rw [ht, hh]
    rfl

/-- C9 (witness): the amended statement at concrete inputs — construction
with a missing text body and empty HTML body fails and leaves the session
unchanged. -/
theorem email_body_required_witness :
    (emailCtor ⟨.strVal (str "a@b.c"), .one (.strVal (str "d@e.f")), none, none, none,
        str "S", none, some [], none, none, none⟩).isOk = (false || false) ∧
    send ⟨true, none, [], false, ⟨none, none⟩⟩
        ⟨.strVal (str "a@b.c"), .one (.strVal (str "d@e.f")), none, none, none,
          str "S", none, some [], none, none, none⟩ c6r1 =
      (.error (str "At least one of text or html must be provided"),
        ⟨true, none, [], false, ⟨none, none⟩⟩) :=
  ⟨(email_body_required _ ⟨true, none, [], false, ⟨none, none⟩⟩ c6r1).1,
   (email_body_required _ ⟨true, none, [], false, ⟨none, none⟩⟩ c6r1).2 rfl rfl⟩

/-- C10: whenever the EHLO reply advertised AUTH but no credentials are
configured, `auth` fails with the `smtp server requires authentication, but
no credentials found` error — and the authenticator is skipped only when the
server did not advertise AUTH, in which case missing credentials are
irrelevant. -/
theorem auth_requires_credentials (s : AuthConfig) :
    (s.allowAuth = true → s.credentials = none →
      auth s = .error (str "smtp server requires authentication, but no credentials found")) ∧
    (s.allowAuth = false → auth s = .ok .skip) := by
  constructor
  · intro h1 h2
    unfold auth
    rw [h1, h2]
    rfl
  · intro h1
    unfold auth
    rw [h1]
    rfl

/-- C10 (witness): the concrete cases — AUTH advertised without credentials
errors; AUTH not advertised skips authentication even without credentials. -/
theorem auth_requires_credentials_witness :
    auth ⟨true, none, [AuthKind.plain], [AuthKind.plain]⟩ =
      .error (str "smtp server requires authentication, but no credentials found") ∧
    auth ⟨false, none, [AuthKind.plain], [AuthKind.plain]⟩ = .ok .skip :=
  ⟨(auth_requires_credentials ⟨true, none, [AuthKind.plain], [AuthKind.plain]⟩).1 rfl rfl,
   (auth_requires_credentials ⟨false, none, [AuthKind.plain], [AuthKind.plain]⟩).2 rfl⟩

end WorkerMailer
